import Mathlib

/-!
Verification development for the "1942 Air Combat" simulation.

The game logic lives in one React component; its per-frame `update`
function, the pause/countdown clock, the spawners, the buff manager and
the shop handlers are embedded below as pure Lean functions.  JS `number`
arithmetic on timestamps, positions and damage is modelled by exact
rational arithmetic (`ℚ`); scores and currency, which only ever hold
integers, by `ℤ`.  Wall-clock samples (`performance.now()`, the
`requestAnimationFrame` timestamp) and the results of `Math.random()`
are passed in as explicit parameters.  Calls to the transcendental
library functions `Math.sin` / `Math.cos` / `Math.sqrt` / `Math.PI`,
whose values never influence the properties proved here, are taken from
an explicit environment record so that every definition stays
executable; the one place where the *value* of such a computation is the
point of a claim (the boss's targeted-burst direction, claim C3) is
modelled separately over `ℝ` with JS non-finite results made explicit.

Purely cosmetic effects (particle bursts from `createExplosion`, audio
cues from `soundManager`, canvas painting) mutate no simulation state
that any claim mentions and are omitted from the embedded bodies.
-/

/-! ## Data model (types.ts) -/

inductive PlaneType
  | standard | light | heavy | tech | blast
deriving DecidableEq, Repr

inductive BuffType
  | rapidFire | shield | spreadShot
deriving DecidableEq, Repr

inductive EnemyType
  | basic | fast | heavy | boss
deriving DecidableEq, Repr

inductive Owner
  | player | enemy
deriving DecidableEq, Repr

structure Buff where
  type : BuffType
  endTime : ℚ
deriving DecidableEq, Repr

structure Player where
  x : ℚ
  y : ℚ
  width : ℚ
  height : ℚ
  speed : ℚ
  type : PlaneType
  health : ℚ
  maxHealth : ℚ
  score : ℤ
  lastShot : ℚ
  fireRate : ℚ
  activeBuffs : List Buff
deriving DecidableEq, Repr

structure Enemy where
  x : ℚ
  y : ℚ
  width : ℚ
  height : ℚ
  speed : ℚ
  type : EnemyType
  health : ℚ
  maxHealth : ℚ
  lastShot : ℚ
  fireRate : ℚ
deriving DecidableEq, Repr

structure Bullet where
  x : ℚ
  y : ℚ
  width : ℚ
  height : ℚ
  speed : ℚ
  owner : Owner
  damage : ℚ
  vx : Option ℚ
  vy : Option ℚ
deriving DecidableEq, Repr

structure PowerUp where
  x : ℚ
  y : ℚ
  width : ℚ
  height : ℚ
  speed : ℚ
  type : BuffType
deriving DecidableEq, Repr

/-- The playfield is the fixed 480x640 logical rectangle (`CANVAS_WIDTH`,
`CANVAS_HEIGHT`). -/
def CANVAS_WIDTH : ℚ := 480

def CANVAS_HEIGHT : ℚ := 640

/-! ## Clock / time model

`update` computes `adjustedTimestamp = timestamp - totalPausedTimeRef.current`;
when the resumption countdown completes it runs
`totalPausedTimeRef.current += performance.now() - pauseStartTimeRef.current`. -/

/-- Adjusted simulation time: a raw frame timestamp minus the accumulated
total-paused-time (line `adjustedTimestamp = timestamp - totalPausedTimeRef.current`). -/
def adjustedTime (timestamp totalPaused : ℚ) : ℚ :=
  timestamp - totalPaused

/-- The accumulator update performed when the countdown completes
(`totalPausedTimeRef.current += performance.now() - pauseStartTimeRef.current`):
`totalPaused` is the accumulator, `pauseStart` the wall-clock time recorded when
the pause began, `now` the wall-clock sample at completion. -/
def resumeAccumulate (totalPaused pauseStart now : ℚ) : ℚ :=
  totalPaused + (now - pauseStart)

/-- The countdown digit computed each frame while in `countdown` status:
`3 - Math.floor((performance.now() - (pauseStartTimeRef.current + 500)) / 1000)`.
Note it is anchored at `pauseStart`, the wall-clock time the *pause* began, not
at the time the countdown itself began. The simulation resumes on the first
frame where this value is `≤ 0`. -/
def countdownDigit (pauseStart now : ℚ) : ℤ :=
  3 - ⌊(now - (pauseStart + 500)) / 1000⌋

/-- Modelled from the claim's words (for comparison with `countdownDigit`,
which is the code's computation): a descent anchored at `cdStart`, the moment
of the `paused → countdown` transition, displaying 3 for the first 500ms and
decrementing every 1000ms thereafter. -/
def specCountdownDigit (cdStart now : ℚ) : ℤ :=
  if now < cdStart + 500 then 3 else 2 - ⌊(now - (cdStart + 500)) / 1000⌋

/-! ## Claim C1 -/

/-- C1: pause-duration invariance of the gameplay clock. When the countdown
completes at wall-clock `p + d` (pause entered at `p`, so `d` is the wall-clock
span spent in paused/countdown), the accumulator grows by exactly `d`; and a
frame occurring any fixed wall-clock offset `u` after completion has the same
adjusted timestamp as it would have had with no pause at all — in particular
the same adjusted timestamp for any two pause durations `d1`, `d2`. Since
fire-rate cooldowns, spawn intervals, buff expiries and elapsed run time are
all computed from the adjusted timestamp, they are unchanged by the pause
duration. -/
theorem c1_pause_invariance : ∀ totalPaused p d1 d2 u : ℚ,
    resumeAccumulate totalPaused p (p + d1) = totalPaused + d1 ∧
    adjustedTime (p + d1 + u) (resumeAccumulate totalPaused p (p + d1)) =
      adjustedTime (p + u) totalPaused ∧
    adjustedTime (p + d1 + u) (resumeAccumulate totalPaused p (p + d1)) =
      adjustedTime (p + d2 + u) (resumeAccumulate totalPaused p (p + d2)) := by
  intro totalPaused p d1 d2 u
  refine ⟨?_, ?_, ?_⟩ <;> simp [resumeAccumulate, adjustedTime] <;> ring

/-! ## Claim C2 -/

/-- C2 counterexample: the code's countdown is anchored at the time the pause
began, not at the `paused → countdown` transition. With the pause entered at
wall-clock 0 and resume clicked at wall-clock 1600 (so the countdown begins at
1600), the very first countdown frame computes digit 2, while the claim's
3-2-1 descent anchored at the countdown start would still display 3. -/
theorem c2_countdown_counterexample :
    countdownDigit 0 1600 = 2 ∧ specCountdownDigit 1600 1600 = 3 ∧
    countdownDigit 0 1600 ≠ specCountdownDigit 1600 1600 := by
  refine ⟨?_, ?_, ?_⟩ <;> norm_num [countdownDigit, specCountdownDigit]

/-- C2 amended: the countdown digit is `3 - ⌊(now - (pauseStart + 500))/1000⌋`,
anchored at the wall-clock time the pause began (not when the countdown began);
the transition to `playing` fires exactly when this value drops below 1, i.e.
on the first frame at least 3500ms after the pause began. Relative to the pause
start the digit is 4 during the first 500ms, 3 during [500,1500), 2 during
[1500,2500) and 1 during [2500,3500); digits whose windows have already passed
when resume is clicked are simply never shown. -/
theorem c2_countdown_amended (p now : ℚ) :
    (countdownDigit p now ≤ 0 ↔ p + 3500 ≤ now) ∧
    (p ≤ now → now < p + 500 → countdownDigit p now = 4) ∧
    (p + 500 ≤ now → now < p + 1500 → countdownDigit p now = 3) ∧
    (p + 1500 ≤ now → now < p + 2500 → countdownDigit p now = 2) ∧
    (p + 2500 ≤ now → now < p + 3500 → countdownDigit p now = 1) := by
  have h1000 : (0 : ℚ) < 1000 := by norm_num
  refine ⟨?_, ?_, ?_, ?_, ?_⟩
  · unfold countdownDigit
    constructor
    · intro h
      have h3 : (3 : ℤ) ≤ ⌊(now - (p + 500)) / 1000⌋ := by omega
      have := (Int.le_floor).mp h3
      push_cast at this
      rw [le_div_iff₀ h1000] at this
      linarith
    · intro h
      have hq : (3 : ℚ) ≤ (now - (p + 500)) / 1000 := by
        rw [le_div_iff₀ h1000]; linarith
      have h3 : (3 : ℤ) ≤ ⌊(now - (p + 500)) / 1000⌋ := by
        rw [Int.le_floor]; push_cast; exact hq
      omega
  · intro h1 h2
    have hfl : ⌊(now - (p + 500)) / 1000⌋ = -1 := by
      rw [Int.floor_eq_iff]
      push_cast
      constructor
      · rw [le_div_iff₀ h1000]; linarith
      · rw [div_lt_iff₀ h1000]; linarith
    unfold countdownDigit
    rw [hfl]; norm_num
  · intro h1 h2
    have hfl : ⌊(now - (p + 500)) / 1000⌋ = 0 := by
      rw [Int.floor_eq_iff]
      push_cast
      constructor
      · rw [le_div_iff₀ h1000]; linarith
      · rw [div_lt_iff₀ h1000]; linarith
    unfold countdownDigit
    rw [hfl]; norm_num
  · intro h1 h2
    have hfl : ⌊(now - (p + 500)) / 1000⌋ = 1 := by
      rw [Int.floor_eq_iff]
      push_cast
      constructor
      · rw [le_div_iff₀ h1000]; linarith
      · rw [div_lt_iff₀ h1000]; linarith
    unfold countdownDigit
    rw [hfl]; norm_num
  · intro h1 h2
    have hfl : ⌊(now - (p + 500)) / 1000⌋ = 2 := by
      rw [Int.floor_eq_iff]
      push_cast
      constructor
      · rw [le_div_iff₀ h1000]; linarith
      · rw [div_lt_iff₀ h1000]; linarith
    unfold countdownDigit
    rw [hfl]; norm_num

/-- C2 amended, witness: pause entered at 0; at wall-clock 600 the digit is 3,
and the resume condition is not yet met while at 3600 it is. -/
theorem c2_countdown_amended_witness :
    ((0 : ℚ) + 500 ≤ 600 ∧ (600 : ℚ) < 0 + 1500 ∧ countdownDigit 0 600 = 3) ∧
    ((0 : ℚ) + 3500 ≤ 3600 ∧ countdownDigit 0 3600 ≤ 0) :=
  ⟨⟨by norm_num, by norm_num,
      (c2_countdown_amended 0 600).2.2.1 (by norm_num) (by norm_num)⟩,
    ⟨by norm_num, (c2_countdown_amended 0 3600).1.mpr (by norm_num)⟩⟩

/-! ## Persisted-state initialization (C4)

The `gameState` initializer reads four string-keyed values from
`localStorage` (`null` when missing, modelled as `none`):
`savedHighScore ? parseInt(savedHighScore) : 0`,
`savedCurrency ? parseInt(savedCurrency) : 0`,
`savedPlanes ? JSON.parse(savedPlanes) : ['standard']`,
`(savedSelected as PlaneType) || 'standard'`. -/

/-- ECMAScript `parseInt(s)` at the default radix: skip leading whitespace,
read an optional sign, then the longest prefix of decimal digits; a `none`
result models `NaN` (no digit found). The `0x` hex-prefix branch of `parseInt`
can never apply to the values this program writes and is not modelled. -/
def parseIntJS (s : String) : Option ℤ :=
  let cs := s.toList.dropWhile fun c => c = ' ' ∨ c = '\t' ∨ c = '\n' ∨ c = '\r'
  let signRest : ℤ × List Char :=
    match cs with
    | '-' :: r => (-1, r)
    | '+' :: r => (1, r)
    | r => (1, r)
  let ds := signRest.2.takeWhile Char.isDigit
  if ds.isEmpty then none
  else some (signRest.1 * ((ds.foldl (fun n c => 10 * n + (c.toNat - 48)) 0 : ℕ) : ℤ))

/-- The default craft id. -/
def standardId : String := "standard"

/-- Initializer for the persisted high score:
`savedHighScore ? parseInt(savedHighScore) : 0`. A missing key (`none`) and the
empty string are falsy and give 0; any other string is fed to `parseInt`, whose
`NaN` result is modelled as `none`. -/
def initHighScore (saved : Option String) : Option ℤ :=
  match saved with
  | none => some 0
  | some s => if s = "" then some 0 else parseIntJS s

/-- Initializer for the persisted currency:
`savedCurrency ? parseInt(savedCurrency) : 0`. -/
def initTotalCurrency (saved : Option String) : Option ℤ :=
  match saved with
  | none => some 0
  | some s => if s = "" then some 0 else parseIntJS s

/-- Initializer for the selected craft:
`(savedSelected as PlaneType) || 'standard'` — a TypeScript cast with no
runtime validation, so any non-empty string is kept verbatim; only a missing
key or the empty string falls back to `standard`. -/
def initSelectedPlane (saved : Option String) : String :=
  match saved with
  | none => standardId
  | some s => if s = "" then standardId else s

/-- A non-numeric persisted high-score value. -/
def malformedScore : String := "abc"

/-- A craft id not in the catalog. -/
def malformedPlane : String := "bogus"

/-- C4: the claim fails on the code — initialization does not map malformed
entries to the documented defaults. `parseInt("abc")` is `NaN` (not 0), and a
garbage selected-craft string is kept verbatim by the unchecked cast (not
replaced by `standard`). (Additionally, by inspection of the remaining
initializer line, a malformed `1942_ownedPlanes` value makes `JSON.parse`
throw.) Missing keys do take the documented defaults. -/
theorem c4_init_malformed :
    initHighScore (some malformedScore) = none ∧
    initHighScore (some malformedScore) ≠ some 0 ∧
    initSelectedPlane (some malformedPlane) = malformedPlane ∧
    initSelectedPlane (some malformedPlane) ≠ standardId ∧
    initHighScore none = some 0 ∧
    initTotalCurrency none = some 0 ∧
    initSelectedPlane none = standardId := by
  refine ⟨?_, ?_, ?_, ?_, ?_, ?_, ?_⟩ <;> decide

/-! ## Craft catalog and shop (C9) -/

/-- One `PLANES` catalog entry (the display-only `name`, `description` and
`color` strings are omitted). -/
structure PlaneData where
  id : PlaneType
  price : ℤ
  health : ℚ
  speed : ℚ
  fireRate : ℚ
deriving DecidableEq, Repr

/-- The `PLANES` catalog. -/
def PLANES : List PlaneData :=
  [⟨.standard, 0, 100, 2.5, 200⟩,
   ⟨.light, 5000, 70, 3.8, 150⟩,
   ⟨.heavy, 15000, 250, 1.8, 300⟩,
   ⟨.tech, 30000, 100, 2.8, 100⟩,
   ⟨.blast, 50000, 150, 2.2, 400⟩]

/-- The slice of `GameState` the shop reads and writes. -/
structure ShopState where
  totalCurrency : ℤ
  ownedPlanes : List PlaneType
  selectedPlane : PlaneType
deriving DecidableEq, Repr

/-- The hangar interaction for one catalog entry, from the shop screen's
`onClick` handlers: an owned craft renders only the select button (purchase is
unreachable), which sets `selectedPlane`; an unowned craft renders the
purchase button, enabled only when `canAfford = totalCurrency >= price`, whose
handler appends the id to `ownedPlanes`, subtracts the price, and selects the
craft; otherwise (insufficient funds, button disabled and handler guarded)
nothing changes. -/
def shopClick (gs : ShopState) (plane : PlaneData) : ShopState :=
  if plane.id ∈ gs.ownedPlanes then
    { gs with selectedPlane := plane.id }
  else if plane.price ≤ gs.totalCurrency then
    { gs with ownedPlanes := gs.ownedPlanes ++ [plane.id],
              totalCurrency := gs.totalCurrency - plane.price,
              selectedPlane := plane.id }
  else gs

/-- C9: purchasing a not-yet-owned catalog craft with sufficient currency
decreases currency by exactly the listed price and appends exactly that one id
to the owned set; for an owned craft the click is selection only (currency and
owned set unchanged); with insufficient currency nothing changes. -/
theorem c9_shop_purchase (gs : ShopState) (plane : PlaneData)
    (_hcat : plane ∈ PLANES) :
    (plane.id ∉ gs.ownedPlanes → plane.price ≤ gs.totalCurrency →
      (shopClick gs plane).totalCurrency = gs.totalCurrency - plane.price ∧
      (shopClick gs plane).ownedPlanes = gs.ownedPlanes ++ [plane.id]) ∧
    (plane.id ∈ gs.ownedPlanes →
      (shopClick gs plane).totalCurrency = gs.totalCurrency ∧
      (shopClick gs plane).ownedPlanes = gs.ownedPlanes) ∧
    (plane.id ∉ gs.ownedPlanes → gs.totalCurrency < plane.price →
      shopClick gs plane = gs) := by
  refine ⟨?_, ?_, ?_⟩
  · intro hno haff
    rw [shopClick, if_neg hno, if_pos haff]
    exact ⟨rfl, rfl⟩
  · intro hyes
    rw [shopClick, if_pos hyes]
    exact ⟨rfl, rfl⟩
  · intro hno hpoor
    rw [shopClick, if_neg hno, if_neg (not_le.mpr hpoor)]

/-- C9 witness: buying the light craft (price 5000) with 6000 currency while
owning only the standard craft. -/
theorem c9_shop_purchase_witness :
    (⟨.light, 5000, 70, 3.8, 150⟩ : PlaneData) ∈ PLANES ∧
    PlaneType.light ∉ [PlaneType.standard] ∧
    (5000 : ℤ) ≤ 6000 ∧
    (shopClick ⟨6000, [.standard], .standard⟩ ⟨.light, 5000, 70, 3.8, 150⟩).totalCurrency
      = 6000 - 5000 ∧
    (shopClick ⟨6000, [.standard], .standard⟩ ⟨.light, 5000, 70, 3.8, 150⟩).ownedPlanes
      = [PlaneType.standard] ++ [PlaneType.light] :=
  ⟨List.Mem.tail _ (List.Mem.head _), by decide, by decide,
    (c9_shop_purchase ⟨6000, [.standard], .standard⟩ ⟨.light, 5000, 70, 3.8, 150⟩
      (List.Mem.tail _ (List.Mem.head _))).1 (by decide) (by decide)⟩

/-! ## Player movement (C7) -/

/-- The currently-held directional inputs (each is the OR of its arrow key and
its WASD key). -/
structure Keys where
  left : Bool
  right : Bool
  up : Bool
  down : Bool
deriving DecidableEq, Repr

/-- Player movement then bounds clamp, from `update`: each held direction adds
`±player.speed` on its axis (all four applied independently), then
`player.x = Math.max(0, Math.min(CANVAS_WIDTH - player.width, player.x))` and
the same for `y` against `CANVAS_HEIGHT - player.height`. -/
def movePlayer (p : Player) (k : Keys) : Player :=
  let x0 := if k.left then p.x - p.speed else p.x
  let x1 := if k.right then x0 + p.speed else x0
  let y0 := if k.up then p.y - p.speed else p.y
  let y1 := if k.down then y0 + p.speed else y0
  { p with x := max 0 (min (CANVAS_WIDTH - p.width) x1),
           y := max 0 (min (CANVAS_HEIGHT - p.height) y1) }

/-- C7: after the movement phase the player position always lies in
`[0, 480 - width] × [0, 640 - height]`, for every prior position, speed and
combination of held directions (the player's size, 40×40, fits the field). -/
theorem c7_player_bounds (p : Player) (k : Keys)
    (hw : p.width ≤ CANVAS_WIDTH) (hh : p.height ≤ CANVAS_HEIGHT) :
    0 ≤ (movePlayer p k).x ∧ (movePlayer p k).x ≤ CANVAS_WIDTH - p.width ∧
    0 ≤ (movePlayer p k).y ∧ (movePlayer p k).y ≤ CANVAS_HEIGHT - p.height := by
  unfold movePlayer
  refine ⟨le_max_left 0 _, ?_, le_max_left 0 _, ?_⟩
  · exact max_le (by linarith) (min_le_left _ _)
  · exact max_le (by linarith) (min_le_left _ _)

/-- C7 witness: the standard 40×40 craft at the bottom-center start position
with all four directions held. -/
theorem c7_player_bounds_witness :
    ((40 : ℚ) ≤ CANVAS_WIDTH ∧ (40 : ℚ) ≤ CANVAS_HEIGHT) ∧
    (0 ≤ (movePlayer ⟨200, 560, 40, 40, 2.5, .standard, 100, 100, 0, 0, 250, []⟩
        ⟨true, true, true, true⟩).x ∧
      (movePlayer ⟨200, 560, 40, 40, 2.5, .standard, 100, 100, 0, 0, 250, []⟩
        ⟨true, true, true, true⟩).x ≤ CANVAS_WIDTH - 40 ∧
      0 ≤ (movePlayer ⟨200, 560, 40, 40, 2.5, .standard, 100, 100, 0, 0, 250, []⟩
        ⟨true, true, true, true⟩).y ∧
      (movePlayer ⟨200, 560, 40, 40, 2.5, .standard, 100, 100, 0, 0, 250, []⟩
        ⟨true, true, true, true⟩).y ≤ CANVAS_HEIGHT - 40) :=
  ⟨⟨by norm_num [CANVAS_WIDTH], by norm_num [CANVAS_HEIGHT]⟩,
    c7_player_bounds ⟨200, 560, 40, 40, 2.5, .standard, 100, 100, 0, 0, 250, []⟩
      ⟨true, true, true, true⟩ (by norm_num [CANVAS_WIDTH]) (by norm_num [CANVAS_HEIGHT])⟩

/-! ## Buff manager (C5) -/

/-- The per-tick buff expiry filter, from `update`:
`player.activeBuffs = player.activeBuffs.filter(b => b.endTime > adjustedTimestamp)`. -/
def filterBuffs (buffs : List Buff) (t : ℚ) : List Buff :=
  buffs.filter fun b => t < b.endTime

/-- Power-up pickup buff application, from the power-up loop in `update`:
`const existing = player.activeBuffs.find(b => b.type === pu.type)` — if found,
only that first matching entry's `endTime` is overwritten with
`adjustedTimestamp + 10000`; otherwise a new entry is pushed. -/
def applyBuff : List Buff → BuffType → ℚ → List Buff
  | [], ty, t => [⟨ty, t + 10000⟩]
  | b :: bs, ty, t =>
    if b.type = ty then { b with endTime := t + 10000 } :: bs
    else b :: applyBuff bs ty t

/-- The expiry of the first (under uniqueness: the only) entry of a buff type,
as `find` would report it. -/
def buffEnd (ty : BuffType) (buffs : List Buff) : Option ℚ :=
  (buffs.find? fun b => b.type = ty).map fun b => b.endTime

/-- At most one buff entry per buff type. -/
def buffUnique (buffs : List Buff) : Prop :=
  (buffs.map fun b => b.type).Nodup

theorem applyBuff_map_type (ty : BuffType) (t : ℚ) :
    ∀ bs : List Buff, (applyBuff bs ty t).map (fun b => b.type) =
      if ∃ b ∈ bs, b.type = ty then bs.map (fun b => b.type)
      else bs.map (fun b => b.type) ++ [ty]
  | [] => by simp [applyBuff]
  | b :: bs => by
    by_cases hb : b.type = ty
    · have hex : ∃ x ∈ b :: bs, x.type = ty := ⟨b, List.mem_cons_self b bs, hb⟩
      rw [if_pos hex]
      simp [applyBuff, hb]
    · have ih := applyBuff_map_type ty t bs
      by_cases hex : ∃ x ∈ bs, x.type = ty
      · have hex' : ∃ x ∈ b :: bs, x.type = ty :=
          hex.elim fun x hx => ⟨x, List.mem_cons_of_mem b hx.1, hx.2⟩
        rw [if_pos hex']
        rw [if_pos hex] at ih
        simp [applyBuff, hb, ih]
      · have hex' : ¬ ∃ x ∈ b :: bs, x.type = ty := by
          rintro ⟨x, hx, hxt⟩
          rcases List.mem_cons.mp hx with h | h
          · exact hb (h ▸ hxt)
          · exact hex ⟨x, h, hxt⟩
        rw [if_neg hex']
        rw [if_neg hex] at ih
        simp [applyBuff, hb, ih]

theorem buffEnd_applyBuff (ty : BuffType) (t : ℚ) :
    ∀ bs : List Buff, buffEnd ty (applyBuff bs ty t) = some (t + 10000)
  | [] => by simp [applyBuff, buffEnd]
  | b :: bs => by
    by_cases hb : b.type = ty
    · simp [applyBuff, hb, buffEnd]
    · have ih := buffEnd_applyBuff ty t bs
      simp only [buffEnd] at ih ⊢
      simp [applyBuff, hb, List.find?_cons, ih]

theorem applyBuff_length_of_mem (ty : BuffType) (t : ℚ) :
    ∀ bs : List Buff, (∃ b ∈ bs, b.type = ty) →
      (applyBuff bs ty t).length = bs.length
  | [], h => by simp at h
  | b :: bs, h => by
    by_cases hb : b.type = ty
    · simp [applyBuff, hb]
    · have hex : ∃ x ∈ bs, x.type = ty := by
        rcases h with ⟨x, hx, hxt⟩
        rcases List.mem_cons.mp hx with h' | h'
        · exact absurd (h' ▸ hxt) hb
        · exact ⟨x, h', hxt⟩
      have ih := applyBuff_length_of_mem ty t bs hex
      simp [applyBuff, hb, ih]

/-- C5 counterexample: the claim's "strictly extends" fails for a second
pickup of the same buff type at the same adjusted timestamp (two same-type
power-ups collected in one tick): after `applyBuff [] rapidFire 100` the
expiry is `100 + 10000`, and re-applying at adjusted time 100 leaves it
exactly equal — extended, but not strictly. -/
theorem c5_buff_counterexample :
    (∃ b ∈ applyBuff [] BuffType.rapidFire 100, b.type = BuffType.rapidFire) ∧
    buffEnd BuffType.rapidFire
        (applyBuff (applyBuff [] BuffType.rapidFire 100) BuffType.rapidFire 100) =
      buffEnd BuffType.rapidFire (applyBuff [] BuffType.rapidFire 100) := by
  constructor
  · exact ⟨⟨BuffType.rapidFire, 100 + 10000⟩, by simp [applyBuff], rfl⟩
  · simp [applyBuff, buffEnd]

/-- C5 amended: the buff set never holds two entries of one type — both the
per-tick expiry filter and pickup application preserve uniqueness (and pickup
of an active type adds no entry) — and applying a buff sets its expiry to
adjusted time + 10000, which never shortens it (any existing expiry was set
from an earlier-or-equal adjusted time, so is at most t + 10000) and strictly
extends it except when the previous application happened at the very same
adjusted timestamp. -/
theorem c5_buff_amended (bs : List Buff) (ty : BuffType) (t : ℚ) :
    (buffUnique bs → buffUnique (applyBuff bs ty t)) ∧
    (buffUnique bs → buffUnique (filterBuffs bs t)) ∧
    ((∃ b ∈ bs, b.type = ty) → (applyBuff bs ty t).length = bs.length) ∧
    buffEnd ty (applyBuff bs ty t) = some (t + 10000) ∧
    (∀ e : ℚ, buffEnd ty bs = some e → e ≤ t + 10000 →
      ∀ e2 : ℚ, buffEnd ty (applyBuff bs ty t) = some e2 →
        e ≤ e2 ∧ (e < t + 10000 → e < e2)) := by
  refine ⟨?_, ?_, applyBuff_length_of_mem ty t bs, buffEnd_applyBuff ty t bs, ?_⟩
  · intro h
    unfold buffUnique at h ⊢
    rw [applyBuff_map_type]
    by_cases hex : ∃ b ∈ bs, b.type = ty
    · rwa [if_pos hex]
    · rw [if_neg hex]
      have hnotin : ty ∉ bs.map fun b => b.type := by
        simp only [List.mem_map]
        rintro ⟨b, hbmem, hbty⟩
        exact hex ⟨b, hbmem, hbty⟩
      rw [List.nodup_append]
      exact ⟨h, List.nodup_singleton ty, by simpa [List.Disjoint] using hnotin⟩
  · intro h
    unfold buffUnique at h ⊢
    exact h.sublist ((List.filter_sublist bs).map fun b => b.type)
  · intro e _ hle e2 he2
    rw [buffEnd_applyBuff ty t bs] at he2
    have he2' : e2 = t + 10000 := by injection he2 with h; exact h.symm
    subst he2'
    exact ⟨hle, fun hlt => hlt⟩

/-- C5 amended, witness: a shield buff applied at adjusted time 500 (expiry
10500), refreshed at adjusted time 1000: uniqueness is preserved, no entry is
added, and the expiry becomes 11000, a strict extension. -/
theorem c5_buff_amended_witness :
    buffUnique [(⟨BuffType.shield, 10500⟩ : Buff)] ∧
    (∃ b ∈ [(⟨BuffType.shield, 10500⟩ : Buff)], b.type = BuffType.shield) ∧
    buffUnique (applyBuff [⟨BuffType.shield, 10500⟩] BuffType.shield 1000) ∧
    (applyBuff [⟨BuffType.shield, 10500⟩] BuffType.shield 1000).length = 1 ∧
    buffEnd BuffType.shield (applyBuff [⟨BuffType.shield, 10500⟩] BuffType.shield 1000)
      = some (1000 + 10000) ∧
    buffEnd BuffType.shield [(⟨BuffType.shield, 10500⟩ : Buff)] = some 10500 ∧
    (10500 : ℚ) ≤ 1000 + 10000 ∧ (10500 : ℚ) < 1000 + 10000 ∧
    (10500 : ℚ) < 1000 + 10000 := by
  have hu : buffUnique [(⟨BuffType.shield, 10500⟩ : Buff)] := by
    simp [buffUnique]
  have hex : ∃ b ∈ [(⟨BuffType.shield, 10500⟩ : Buff)], b.type = BuffType.shield :=
    ⟨⟨BuffType.shield, 10500⟩, List.mem_cons_self _ _, rfl⟩
  have hend : buffEnd BuffType.shield [(⟨BuffType.shield, 10500⟩ : Buff)] = some 10500 := by
    simp [buffEnd]
  have hle : (10500 : ℚ) ≤ 1000 + 10000 := by norm_num
  have hlt : (10500 : ℚ) < 1000 + 10000 := by norm_num
  have hmain := c5_buff_amended [⟨BuffType.shield, 10500⟩] BuffType.shield 1000
  refine ⟨hu, hex, hmain.1 hu, hmain.2.2.1 hex, hmain.2.2.2.1, hend, hle, hlt, ?_⟩
  exact ((hmain.2.2.2.2 10500 hend hle (1000 + 10000) hmain.2.2.2.1).2 hlt)

/-! ## Enemy spawner (C6) -/

/-- The `spawnEnemy` function. `timestamp` is the adjusted timestamp passed by
`update`; `randType` is the uniformly random index into
`['basic','fast','heavy']`; `randX` is the `Math.random()` sample in `[0,1)`.
Returns the (possibly extended) enemy list and the new `lastEnemySpawnRef`
value. Normal spawning is suppressed entirely while any boss enemy exists. -/
def spawnEnemy (enemies : List Enemy) (timestamp gameStart lastEnemySpawn : ℚ)
    (randType : Fin 3) (randX : ℚ) : List Enemy × ℚ :=
  if enemies.any fun e => e.type = EnemyType.boss then (enemies, lastEnemySpawn)
  else
    let gameTime := timestamp - gameStart
    let difficultyFactor := min (gameTime / 120000) 1
    let currentSpawnInterval := 3000 - difficultyFactor * 2200
    if timestamp - lastEnemySpawn > currentSpawnInterval then
      let ty := [EnemyType.basic, EnemyType.fast, EnemyType.heavy].get randType
      (enemies ++
        [{ x := randX * (CANVAS_WIDTH - 40), y := -50, width := 40, height := 40,
           speed := if ty = .fast then 1.5 else if ty = .heavy then 0.6 else 1.0,
           type := ty,
           health := if ty = .heavy then 50 else 20,
           maxHealth := if ty = .heavy then 50 else 20,
           lastShot := 0,
           fireRate := if ty = .heavy then 1500 else 2500 }], timestamp)
    else (enemies, lastEnemySpawn)

/-- C6: whenever any boss enemy exists, the spawner introduces no basic, fast
or heavy enemy and leaves the spawn timer untouched — for every timestamp,
spawn-interval state and random draw. -/
theorem c6_boss_excludes_spawn (enemies : List Enemy)
    (timestamp gameStart lastEnemySpawn : ℚ) (randType : Fin 3) (randX : ℚ)
    (h : ∃ e ∈ enemies, e.type = EnemyType.boss) :
    spawnEnemy enemies timestamp gameStart lastEnemySpawn randType randX =
      (enemies, lastEnemySpawn) := by
  unfold spawnEnemy
  rw [if_pos]
  rcases h with ⟨e, hmem, hty⟩
  exact List.any_eq_true.mpr ⟨e, hmem, decide_eq_true hty⟩

/-- C6 witness: with the first boss (health 500) on the field and the spawn
interval long overdue, nothing spawns. -/
theorem c6_boss_excludes_spawn_witness :
    (∃ e ∈ [(⟨200, 80, 80, 80, 0.4, EnemyType.boss, 500, 500, 0, 800⟩ : Enemy)],
      e.type = EnemyType.boss) ∧
    spawnEnemy [⟨200, 80, 80, 80, 0.4, EnemyType.boss, 500, 500, 0, 800⟩]
        100000 0 0 0 (1/2) =
      ([⟨200, 80, 80, 80, 0.4, EnemyType.boss, 500, 500, 0, 800⟩], 0) :=
  ⟨⟨_, List.mem_cons_self _ _, rfl⟩,
    c6_boss_excludes_spawn _ 100000 0 0 0 (1/2) ⟨_, List.mem_cons_self _ _, rfl⟩⟩

/-! ## The per-tick entity loops (C8, C10)

The three collection loops in `update` iterate with `Array.prototype.forEach`
and remove elements with `splice(index, 1)` at the current index, so a removal
shifts the next element into the current slot where the advancing index never
visits it. `forEachSplice` below models exactly that: on removal, the next
element (if any) is carried to the output untouched and iteration continues
after it.

`Math.sin` / `Math.cos` / `Math.sqrt` / `Math.PI`, and the one division whose
divisor can be zero (the pattern-2 distance), are taken from an explicit
environment `Env`; every property proved about these loops holds for all
interpretations, and the finite/non-finite analysis of the pattern-2 division
itself is the separate real-valued model for claim C3 below. -/

/-- Interpretations of the transcendental JS math functions used by the boss
logic (and of the division by the pattern-2 distance). -/
structure Env where
  sin : ℚ → ℚ
  cos : ℚ → ℚ
  sqrt : ℚ → ℚ
  div : ℚ → ℚ → ℚ
  pi : ℚ

/-- An arbitrary interpretation (used to instantiate witnesses). -/
def envZero : Env :=
  ⟨fun _ => 0, fun _ => 0, fun _ => 0, fun _ _ => 0, 0⟩

/-- JS truncation toward zero (used by the `%` remainder operator). -/
def jsTrunc (q : ℚ) : ℤ :=
  if 0 ≤ q then ⌊q⌋ else ⌈q⌉

/-- The JS `%` operator on numbers: `a - b * trunc(a / b)`. -/
def jsRem (a b : ℚ) : ℚ :=
  a - b * (jsTrunc (a / b) : ℚ)

/-- The boss attack patterns, selected by
`Math.floor((adjustedTimestamp / 5000) % 3)`: pattern 0 pushes a 5-way spread,
pattern 1 a 12-bullet circular burst, and any other value the targeted burst
aimed at the player (pattern 2). Bullets are listed in push order. -/
def bossPatternBullets (env : Env) (t : ℚ) (p : Player) (e : Enemy) : List Bullet :=
  let pattern := ⌊jsRem (t / 5000) 3⌋
  if pattern = 0 then
    [(-0.4 : ℚ), -0.2, 0, 0.2, 0.4].map fun angle =>
      { x := e.x + e.width / 2 - 3, y := e.y + e.height - 10, width := 6, height := 15,
        speed := 2.2, owner := Owner.enemy, damage := 20,
        vx := some (env.sin angle * 2.5), vy := some (env.cos angle * 2.5) }
  else if pattern = 1 then
    (List.range 12).map fun i =>
      let angle := ((i : ℚ) / 12) * env.pi * 2
      { x := e.x + e.width / 2 - 3, y := e.y + e.height / 2, width := 6, height := 6,
        speed := 2.0, owner := Owner.enemy, damage := 15,
        vx := some (env.cos angle * 2.0), vy := some (env.sin angle * 2.0) }
  else
    let dx := (p.x + p.width / 2) - (e.x + e.width / 2)
    let dy := (p.y + p.height / 2) - (e.y + e.height / 2)
    let dist := env.sqrt (dx * dx + dy * dy)
    [{ x := e.x + e.width / 2 - 3, y := e.y + e.height - 10, width := 8, height := 8,
       speed := 3.5, owner := Owner.enemy, damage := 25,
       vx := some (env.div dx dist * 3.5), vy := some (env.div dy dist * 3.5) }]

/-- Movement and shooting of one enemy, from the enemy loop in `update`: a
boss descends until `y < 80` fails, then oscillates horizontally by
`Math.sin(adjustedTimestamp / 1000) * 1.5` clamped 20px inside each edge, and
fires its due pattern once `fireRate` (800ms) has elapsed; any other enemy
moves straight down and fires a straight bullet once its `fireRate` has
elapsed. Returns the updated enemy and the bullets pushed. -/
def enemyMoveShoot (env : Env) (t : ℚ) (p : Player) (e0 : Enemy) : Enemy × List Bullet :=
  if e0.type = EnemyType.boss then
    let e1 := if e0.y < 80 then { e0 with y := e0.y + e0.speed }
      else { e0 with
        x := max 20 (min (CANVAS_WIDTH - e0.width - 20) (e0.x + env.sin (t / 1000) * 1.5)) }
    if t - e1.lastShot > e1.fireRate then
      ({ e1 with lastShot := t }, bossPatternBullets env t p e1)
    else (e1, [])
  else
    let e1 := { e0 with y := e0.y + e0.speed }
    if t - e1.lastShot > e1.fireRate then
      ({ e1 with lastShot := t },
        [{ x := e1.x + e1.width / 2 - 2, y := e1.y + e1.height, width := 4, height := 10,
           speed := 1.8, owner := Owner.enemy, damage := 10, vx := none, vy := none }])
    else (e1, [])

/-- The mutable state threaded through the enemy loop. -/
structure EState where
  player : Player
  bullets : List Bullet
  lastBossDefeated : ℚ
deriving DecidableEq, Repr

/-- One enemy-loop iteration up to (not including) the removal check:
movement and shooting, then the body-contact collision with the player —
an overlap deals 20 damage (skipped when a shield buff is active) and zeroes
the enemy's health unconditionally. -/
def enemyStep (env : Env) (t : ℚ) (s : EState) (e0 : Enemy) : EState × Enemy :=
  let p := s.player
  let moved := enemyMoveShoot env t p e0
  let e1 := moved.1
  if p.x < e1.x + e1.width ∧ p.x + p.width > e1.x ∧
      p.y < e1.y + e1.height ∧ p.y + p.height > e1.y then
    let hasShield := p.activeBuffs.any fun b => b.type = BuffType.shield
    let p1 := if hasShield then p else { p with health := p.health - 20 }
    ({ s with player := p1, bullets := s.bullets ++ moved.2 }, { e1 with health := 0 })
  else
    ({ s with bullets := s.bullets ++ moved.2 }, e1)

/-- The score awarded when an enemy dies:
`enemy.type === 'boss' ? 5000 : enemy.type === 'heavy' ? 500 : 100`. -/
def enemyScore : EnemyType → ℤ
  | EnemyType.boss => 5000
  | EnemyType.heavy => 500
  | _ => 100

/-- The removal check ending one enemy-loop iteration: an enemy is spliced out
when it has left the playfield southward or its health is ≤ 0; only in the
dead case is the score awarded (and the explosion spawned); a removed boss
additionally records the last-boss-defeat anchor `adjustedTimestamp - gameStart`. -/
def enemyRemove (t gameStart : ℚ) (s : EState) (e : Enemy) : EState × Option Enemy :=
  if e.y > CANVAS_HEIGHT ∨ e.health ≤ 0 then
    let s1 := if e.health ≤ 0 then
        { s with player := { s.player with score := s.player.score + enemyScore e.type } }
      else s
    let s2 := if e.type = EnemyType.boss then
        { s1 with lastBossDefeated := t - gameStart }
      else s1
    (s2, none)
  else (s, some e)

/-- One full enemy-loop iteration. -/
def enemyBody (env : Env) (t gameStart : ℚ) (s : EState) (e0 : Enemy) :
    EState × Option Enemy :=
  let r := enemyStep env t s e0
  enemyRemove t gameStart r.1 r.2

/-- One power-up-loop iteration, from `update`: fall by `speed`; on overlap
with the player, apply/refresh the buff and splice the power-up out; the
trailing bottom-edge check splices it out when `y > CANVAS_HEIGHT`. (The two
splice sites cannot both fire in one iteration: an overlap forces
`pu.y < player.y + player.height ≤ CANVAS_HEIGHT` for a clamped player, so
they are modelled as one removal decision.) -/
def powerUpBody (t : ℚ) (p : Player) (pu0 : PowerUp) : Player × Option PowerUp :=
  let pu := { pu0 with y := pu0.y + pu0.speed }
  if p.x < pu.x + pu.width ∧ p.x + p.width > pu.x ∧
      p.y < pu.y + pu.height ∧ p.y + p.height > pu.y then
    ({ p with activeBuffs := applyBuff p.activeBuffs pu.type t }, none)
  else if pu.y > CANVAS_HEIGHT then (p, none)
  else (p, some pu)

/-- The mutable state threaded through the bullet loop. -/
structure BState where
  player : Player
  enemies : List Enemy
deriving DecidableEq, Repr

/-- The inner `enemiesRef.current.forEach` of a player bullet: every enemy the
bullet overlaps loses `damage` health, and the bullet is marked for removal by
teleporting to `y = -100` (no enemy is removed here). -/
def hitEnemies : Bullet → List Enemy → Bullet × List Enemy
  | b, [] => (b, [])
  | b, e :: es =>
    if b.x < e.x + e.width ∧ b.x + b.width > e.x ∧
        b.y < e.y + e.height ∧ b.y + b.height > e.y then
      let r := hitEnemies { b with y := -100 } es
      (r.1, { e with health := e.health - b.damage } :: r.2)
    else
      let r := hitEnemies b es
      (r.1, e :: r.2)

/-- One bullet-loop iteration, from `update`: move by the explicit velocity
vector when both components are set, else by `speed` on the vertical axis;
a player bullet damages every overlapped enemy (marking itself at `y = -100`),
an enemy bullet overlapping the player deals damage unless a shield buff is
active (marking itself at `y = CANVAS_HEIGHT + 100`); finally the bullet is
spliced out when outside the playfield by more than the 50px margin. -/
def bulletBody (s : BState) (b0 : Bullet) : BState × Option Bullet :=
  let b1 := match b0.vx, b0.vy with
    | some vx, some vy => { b0 with x := b0.x + vx, y := b0.y + vy }
    | _, _ => { b0 with y := b0.y + b0.speed }
  let sb : BState × Bullet :=
    if b1.owner = Owner.player then
      let r := hitEnemies b1 s.enemies
      ({ s with enemies := r.2 }, r.1)
    else
      let p := s.player
      if b1.x < p.x + p.width ∧ b1.x + b1.width > p.x ∧
          b1.y < p.y + p.height ∧ b1.y + b1.height > p.y then
        let hasShield := p.activeBuffs.any fun bf => bf.type = BuffType.shield
        let p1 := if hasShield then p else { p with health := p.health - b1.damage }
        ({ s with player := p1 }, { b1 with y := CANVAS_HEIGHT + 100 })
      else (s, b1)
  if sb.2.y < -50 ∨ sb.2.y > CANVAS_HEIGHT + 50 ∨ sb.2.x < -50 ∨ sb.2.x > CANVAS_WIDTH + 50 then
    (sb.1, none)
  else (sb.1, some sb.2)

/-- JS `forEach` with `splice(index, 1)` at the current index: the visiting
index advances every iteration while a removal shifts the rest of the array
left by one, so the element following a removed one is never visited — it is
carried to the output unchanged and iteration resumes with the element after
it. -/
def forEachSplice {σ α : Type} (body : σ → α → σ × Option α) :
    σ → List α → σ × List α
  | s, [] => (s, [])
  | s, a :: todo =>
    match body s a with
    | (s1, some a1) =>
      let r := forEachSplice body s1 todo
      (r.1, a1 :: r.2)
    | (s1, none) =>
      match todo with
      | [] => (s1, [])
      | b :: rest =>
        let r := forEachSplice body s1 rest
        (r.1, b :: r.2)

/-- The power-up loop of one tick. -/
def updatePowerUps (t : ℚ) : Player → List PowerUp → Player × List PowerUp :=
  forEachSplice (powerUpBody t)

/-- The enemy loop of one tick. -/
def updateEnemies (env : Env) (t gameStart : ℚ) :
    EState → List Enemy → EState × List Enemy :=
  forEachSplice (enemyBody env t gameStart)

/-- The bullet loop of one tick. -/
def updateBullets : BState → List Bullet → BState × List Bullet :=
  forEachSplice bulletBody

theorem forEachSplice_skip {σ α : Type} (body : σ → α → σ × Option α)
    (s : σ) (a b : α) (rest : List α) (h : (body s a).2 = none) :
    forEachSplice body s (a :: b :: rest) =
      ((forEachSplice body (body s a).1 rest).1,
        b :: (forEachSplice body (body s a).1 rest).2) := by
  have hpair : body s a = ((body s a).1, none) := by
    rw [← h]
  rw [forEachSplice, hpair]

theorem enemyMoveShoot_type (env : Env) (t : ℚ) (p : Player) (e0 : Enemy) :
    (enemyMoveShoot env t p e0).1.type = e0.type := by
  simp only [enemyMoveShoot]
  split_ifs <;> rfl

theorem enemyStep_type (env : Env) (t : ℚ) (s : EState) (e0 : Enemy) :
    (enemyStep env t s e0).2.type = e0.type := by
  simp only [enemyStep]
  split_ifs <;> exact enemyMoveShoot_type env t s.player e0

theorem enemyStep_score (env : Env) (t : ℚ) (s : EState) (e0 : Enemy) :
    (enemyStep env t s e0).1.player.score = s.player.score := by
  simp only [enemyStep]
  split_ifs <;> rfl

/-- C8: score is awarded exactly at the moment an enemy is spliced out dead,
with the type-correct amount. After the movement/shooting/body-contact phase
(`enemyStep`, which never touches the score and never changes the enemy's
type): a dead enemy (health ≤ 0, whether from earlier bullet damage or from
the body contact that zeroes health) always yields exactly
`+ enemyScore e.type` (boss 5000, heavy 500, basic/fast 100) and is removed in
the same iteration — so it can never be awarded again on a later tick; an
enemy with positive health yields no score at all (in particular one removed
south of the playfield); a kept enemy is returned exactly as `enemyStep` left
it, with the state unchanged, so a deferred dead enemy is awarded once when it
is eventually processed. -/
theorem c8_enemy_score (env : Env) (t gameStart : ℚ) (s : EState) (e : Enemy) :
    (enemyStep env t s e).2.type = e.type ∧
    ((enemyStep env t s e).2.health ≤ 0 →
      (enemyBody env t gameStart s e).1.player.score =
        s.player.score + enemyScore e.type ∧
      (enemyBody env t gameStart s e).2 = none) ∧
    (¬ (enemyStep env t s e).2.health ≤ 0 →
      (enemyBody env t gameStart s e).1.player.score = s.player.score) ∧
    (∀ e2 : Enemy, (enemyBody env t gameStart s e).2 = some e2 →
      e2 = (enemyStep env t s e).2 ∧
      (enemyBody env t gameStart s e).1 = (enemyStep env t s e).1) := by
  have htype := enemyStep_type env t s e
  have hscore := enemyStep_score env t s e
  refine ⟨htype, ?_, ?_, ?_⟩
  · intro hdead
    have hrem : (enemyStep env t s e).2.y > CANVAS_HEIGHT ∨
        (enemyStep env t s e).2.health ≤ 0 := Or.inr hdead
    constructor
    · simp only [enemyBody, enemyRemove, if_pos hrem, if_pos hdead]
      by_cases hboss : (enemyStep env t s e).2.type = EnemyType.boss
      · simp only [if_pos hboss]
        rw [hscore, htype]
      · simp only [if_neg hboss]
        rw [hscore, htype]
    · simp only [enemyBody, enemyRemove, if_pos hrem]
  · intro hndead
    simp only [enemyBody, enemyRemove]
    by_cases hy : (enemyStep env t s e).2.y > CANVAS_HEIGHT
    · have hrem : (enemyStep env t s e).2.y > CANVAS_HEIGHT ∨
          (enemyStep env t s e).2.health ≤ 0 := Or.inl hy
      simp only [if_pos hrem, if_neg hndead]
      by_cases hboss : (enemyStep env t s e).2.type = EnemyType.boss
      · simp only [if_pos hboss]
        exact hscore
      · simp only [if_neg hboss]
        exact hscore
    · have hrem : ¬ ((enemyStep env t s e).2.y > CANVAS_HEIGHT ∨
          (enemyStep env t s e).2.health ≤ 0) := not_or_intro hy hndead
      simp only [if_neg hrem]
      exact hscore
  · intro e2 h2
    simp only [enemyBody, enemyRemove] at h2 ⊢
    by_cases hrem : (enemyStep env t s e).2.y > CANVAS_HEIGHT ∨
        (enemyStep env t s e).2.health ≤ 0
    · simp only [if_pos hrem] at h2
      exact Option.noConfusion h2
    · simp only [if_neg hrem] at h2 ⊢
      exact ⟨(Option.some_inj.mp h2).symm, trivial⟩

/-! Sample inputs used by the loop witnesses. -/

/-- A standard player at the top-left corner. -/
def wPlayer : Player := ⟨0, 0, 40, 40, 2.5, .standard, 100, 100, 0, 0, 250, []⟩

/-- A shield power-up overlapping `wPlayer`. -/
def wPowerUp : PowerUp := ⟨0, 0, 30, 30, 1.2, .shield⟩

/-- A power-up below the bottom edge (its own removal is due). -/
def wPowerUp2 : PowerUp := ⟨100, 700, 30, 30, 1.2, .rapidFire⟩

/-- A live basic enemy far past the bottom edge (removed south, no award). -/
def wEnemyGone : Enemy := ⟨300, 1000, 40, 40, 1, .basic, 20, 20, 0, 2500⟩

/-- A dead basic enemy (health 0) away from `wPlayer`. -/
def wEnemyDead : Enemy := ⟨300, 100, 40, 40, 1, .basic, 0, 20, 0, 2500⟩

/-- The enemy-loop state built from `wPlayer`. -/
def wEState : EState := ⟨wPlayer, [], 0⟩

/-- A player bullet above the top margin (removed this iteration). -/
def wBullet : Bullet := ⟨0, -100, 4, 12, -4, .player, 10, none, none⟩

/-- A second out-of-bounds player bullet. -/
def wBullet2 : Bullet := ⟨0, -200, 4, 12, -4, .player, 10, none, none⟩

/-- The bullet-loop state built from `wPlayer`. -/
def wBState : BState := ⟨wPlayer, []⟩

/-- C8 witness: at adjusted time 1000, the dead basic enemy is processed:
score rises by exactly 100 and the enemy is removed. -/
theorem c8_enemy_score_witness :
    (enemyStep envZero 1000 wEState wEnemyDead).2.health ≤ 0 ∧
    (enemyBody envZero 1000 0 wEState wEnemyDead).1.player.score =
      0 + enemyScore EnemyType.basic ∧
    (enemyBody envZero 1000 0 wEState wEnemyDead).2 = none := by
  have hb : (EnemyType.basic = EnemyType.boss) = False := by simp
  have hdead : (enemyStep envZero 1000 wEState wEnemyDead).2.health ≤ 0 := by
    norm_num [enemyStep, enemyMoveShoot, wEState, wEnemyDead, wPlayer, envZero, hb]
  have h := (c8_enemy_score envZero 1000 0 wEState wEnemyDead).2.1 hdead
  exact ⟨hdead, by rw [h.1]; rfl, h.2⟩

/-- C10: splice-during-forEach skips the successor. In each of the three
collection loops (power-ups, enemies, bullets), whenever the element at the
current index is removed, the element that followed it is carried to the
output completely unchanged — it is not moved, fires no shot, takes part in no
collision, contributes nothing to the state, and even if its own removal
condition already holds it survives to a later tick — and iteration resumes
with the element after it. -/
theorem c10_splice_skip :
    (∀ (t : ℚ) (p : Player) (pu1 pu2 : PowerUp) (rest : List PowerUp),
      (powerUpBody t p pu1).2 = none →
      updatePowerUps t p (pu1 :: pu2 :: rest) =
        ((updatePowerUps t (powerUpBody t p pu1).1 rest).1,
          pu2 :: (updatePowerUps t (powerUpBody t p pu1).1 rest).2)) ∧
    (∀ (env : Env) (t gameStart : ℚ) (s : EState) (e1 e2 : Enemy) (rest : List Enemy),
      (enemyBody env t gameStart s e1).2 = none →
      updateEnemies env t gameStart s (e1 :: e2 :: rest) =
        ((updateEnemies env t gameStart (enemyBody env t gameStart s e1).1 rest).1,
          e2 :: (updateEnemies env t gameStart (enemyBody env t gameStart s e1).1 rest).2)) ∧
    (∀ (s : BState) (b1 b2 : Bullet) (rest : List Bullet),
      (bulletBody s b1).2 = none →
      updateBullets s (b1 :: b2 :: rest) =
        ((updateBullets (bulletBody s b1).1 rest).1,
          b2 :: (updateBullets (bulletBody s b1).1 rest).2)) :=
  ⟨fun t p pu1 pu2 rest h => forEachSplice_skip (powerUpBody t) p pu1 pu2 rest h,
   fun env t gs s e1 e2 rest h => forEachSplice_skip (enemyBody env t gs) s e1 e2 rest h,
   fun s b1 b2 rest h => forEachSplice_skip bulletBody s b1 b2 rest h⟩

/-- C10 witness: in each loop, a removed first element (collected power-up /
south-escaped enemy / out-of-bounds bullet) makes the loop skip the second
element, which stays in the collection unchanged even though its own removal
condition already holds. -/
theorem c10_splice_skip_witness :
    ((powerUpBody 0 wPlayer wPowerUp).2 = none ∧
      updatePowerUps 0 wPlayer [wPowerUp, wPowerUp2] =
        ((updatePowerUps 0 (powerUpBody 0 wPlayer wPowerUp).1 []).1,
          wPowerUp2 :: (updatePowerUps 0 (powerUpBody 0 wPlayer wPowerUp).1 []).2)) ∧
    ((enemyBody envZero 1000 0 wEState wEnemyGone).2 = none ∧
      updateEnemies envZero 1000 0 wEState [wEnemyGone, wEnemyDead] =
        ((updateEnemies envZero 1000 0 (enemyBody envZero 1000 0 wEState wEnemyGone).1 []).1,
          wEnemyDead ::
            (updateEnemies envZero 1000 0 (enemyBody envZero 1000 0 wEState wEnemyGone).1 []).2)) ∧
    ((bulletBody wBState wBullet).2 = none ∧
      updateBullets wBState [wBullet, wBullet2] =
        ((updateBullets (bulletBody wBState wBullet).1 []).1,
          wBullet2 :: (updateBullets (bulletBody wBState wBullet).1 []).2)) := by
  have hb : (EnemyType.basic = EnemyType.boss) = False := by simp
  have h1 : (powerUpBody 0 wPlayer wPowerUp).2 = none := by
    norm_num [powerUpBody, wPlayer, wPowerUp]
  have h2 : (enemyBody envZero 1000 0 wEState wEnemyGone).2 = none := by
    norm_num [enemyBody, enemyStep, enemyMoveShoot, enemyRemove, wEState, wEnemyGone,
      wPlayer, envZero, CANVAS_HEIGHT, hb]
  have h3 : (bulletBody wBState wBullet).2 = none := by
    norm_num [bulletBody, hitEnemies, wBState, wBullet, wPlayer, CANVAS_WIDTH, CANVAS_HEIGHT]
  exact ⟨⟨h1, c10_splice_skip.1 0 wPlayer wPowerUp wPowerUp2 [] h1⟩,
    ⟨h2, c10_splice_skip.2.1 envZero 1000 0 wEState wEnemyGone wEnemyDead [] h2⟩,
    ⟨h3, c10_splice_skip.2.2 wBState wBullet wBullet2 [] h3⟩⟩

/-! ## Boss targeted burst over the reals (C3)

The pattern-2 branch computes
`dist = Math.sqrt(dx*dx + dy*dy)`, `vx = (dx / dist) * 3.5`,
`vy = (dy / dist) * 3.5` with no guard on `dist`. This is the one computation
whose claim is about (non-)finiteness, so it is modelled over `ℝ` with the JS
division's non-finite results (`0/0 = NaN`, `x/0 = ±Infinity`) made explicit. -/

/-- JS division of finite operands with non-finite results made explicit:
the result is a finite number exactly when the divisor is nonzero; `none`
models a non-finite result (`NaN` or `±Infinity`). -/
noncomputable def jsDivR (a b : ℝ) : Option ℝ :=
  if b = 0 then none else some (a / b)

/-- The velocity components of the boss pattern-2 targeted-burst bullet:
`dx`/`dy` from the boss's center to the player's center, normalized by
`Math.sqrt(dx*dx + dy*dy)` and scaled by 3.5. A `none` component models a
non-finite value. -/
noncomputable def pattern2Vel (p : Player) (e : Enemy) : Option ℝ × Option ℝ :=
  let dx : ℝ := ((p.x + p.width / 2 : ℚ) : ℝ) - ((e.x + e.width / 2 : ℚ) : ℝ)
  let dy : ℝ := ((p.y + p.height / 2 : ℚ) : ℝ) - ((e.y + e.height / 2 : ℚ) : ℝ)
  let dist := Real.sqrt (dx * dx + dy * dy)
  ((jsDivR dx dist).map fun v => v * 3.5, (jsDivR dy dist).map fun v => v * 3.5)

theorem pattern2Vel_nonfinite_iff (p : Player) (e : Enemy) :
    ((pattern2Vel p e).1 = none ∧ (pattern2Vel p e).2 = none) ↔
      (p.x + p.width / 2 = e.x + e.width / 2 ∧
        p.y + p.height / 2 = e.y + e.height / 2) := by
  have hdx0 : ((p.x + p.width / 2 : ℚ) : ℝ) - ((e.x + e.width / 2 : ℚ) : ℝ) = 0 ↔
      p.x + p.width / 2 = e.x + e.width / 2 := by
    rw [sub_eq_zero, Rat.cast_inj]
  have hdy0 : ((p.y + p.height / 2 : ℚ) : ℝ) - ((e.y + e.height / 2 : ℚ) : ℝ) = 0 ↔
      p.y + p.height / 2 = e.y + e.height / 2 := by
    rw [sub_eq_zero, Rat.cast_inj]
  set dx : ℝ := ((p.x + p.width / 2 : ℚ) : ℝ) - ((e.x + e.width / 2 : ℚ) : ℝ) with hdx
  set dy : ℝ := ((p.y + p.height / 2 : ℚ) : ℝ) - ((e.y + e.height / 2 : ℚ) : ℝ) with hdy
  have hnn : (0 : ℝ) ≤ dx * dx + dy * dy :=
    add_nonneg (mul_self_nonneg dx) (mul_self_nonneg dy)
  have hdist : Real.sqrt (dx * dx + dy * dy) = 0 ↔ dx = 0 ∧ dy = 0 := by
    rw [Real.sqrt_eq_zero hnn]
    constructor
    · intro h
      have h1 : dx * dx = 0 := by nlinarith [mul_self_nonneg dx, mul_self_nonneg dy]
      have h2 : dy * dy = 0 := by nlinarith [mul_self_nonneg dx, mul_self_nonneg dy]
      exact ⟨mul_self_eq_zero.mp h1, mul_self_eq_zero.mp h2⟩
    · rintro ⟨h1, h2⟩
      rw [h1, h2]
      ring
  have hfst : (pattern2Vel p e).1 =
      (jsDivR dx (Real.sqrt (dx * dx + dy * dy))).map (fun v => v * 3.5) := rfl
  have hsnd : (pattern2Vel p e).2 =
      (jsDivR dy (Real.sqrt (dx * dx + dy * dy))).map (fun v => v * 3.5) := rfl
  by_cases h0 : Real.sqrt (dx * dx + dy * dy) = 0
  · have hc := hdist.mp h0
    refine iff_of_true ⟨?_, ?_⟩ ⟨hdx0.mp hc.1, hdy0.mp hc.2⟩
    · rw [hfst, h0]
      simp [jsDivR]
    · rw [hsnd, h0]
      simp [jsDivR]
  · refine iff_of_false ?_ ?_
    · intro hcontra
      have h1 := hcontra.1
      rw [hfst] at h1
      simp [jsDivR, h0] at h1
    · rintro ⟨h1, h2⟩
      exact h0 (hdist.mpr ⟨hdx0.mpr h1, hdy0.mpr h2⟩)

/-- C3: the claim fails on the code — there is no zero-distance fallback.
With the player at (100,100) (size 40×40) and the boss at (80,80) (size
80×80) the two centers coincide at (120,120), the distance is 0, and both
components of the targeted-burst velocity are `(0/0)*3.5`, i.e. NaN:
non-finite, not a safe default direction. In general the components are
non-finite exactly when the two centers coincide. -/
theorem c3_pattern2_nonfinite :
    pattern2Vel ⟨100, 100, 40, 40, 2.5, .standard, 100, 100, 0, 0, 250, []⟩
        ⟨80, 80, 80, 80, 0.4, .boss, 500, 500, 0, 800⟩ = (none, none) ∧
    ∀ (p : Player) (e : Enemy),
      ((pattern2Vel p e).1 = none ∧ (pattern2Vel p e).2 = none) ↔
        (p.x + p.width / 2 = e.x + e.width / 2 ∧
          p.y + p.height / 2 = e.y + e.height / 2) := by
  constructor
  · have h := (pattern2Vel_nonfinite_iff
      ⟨100, 100, 40, 40, 2.5, .standard, 100, 100, 0, 0, 250, []⟩
      ⟨80, 80, 80, 80, 0.4, .boss, 500, 500, 0, 800⟩).mpr (by norm_num)
    rw [Prod.ext_iff]
    exact h
  · exact pattern2Vel_nonfinite_iff
